import Mathlib

/-!
Verification development for `transcript_downloader.py`.

Shallow embedding of the logic-bearing parts of the script:
fiscal-period resolution (`determine_quarter_fy`), row/link extraction
(`parse_transcript_row`, `get_company_transcripts`), the two pagination
loops (`scrape_transcripts_page`, `get_all_companies`), the Google Drive
state model (`get_or_create_folder`, `file_exists_in_drive`,
`upload_to_drive`) and the fetch-and-store pipeline
(`download_and_upload_transcripts`).

Modelling conventions:
* Python strings are Lean `String`; character classes (`\d`, `\s`,
  `str.lower`) are modelled over their ASCII behaviour, which is the
  relevant fragment for this source.
* `datetime.now()` is an explicit parameter `now : Nat × Nat`
  (year, month) threaded into `determine_quarter_fy`.
* The browser/HTML boundary is an oracle: a page number maps to the
  rows/links BeautifulSoup would report plus the next-link presence bit.
* Exceptions inside the per-descriptor loop are an oracle
  `fail : Nat → Option FailStep` naming the step (if any) at which the
  descriptor at a given 1-based index raises; a raising step performs no
  state write of its own.
-/

set_option maxRecDepth 16000

namespace TD

/-- ASCII whitespace, the fragment of Python `\s` / `str.strip` relevant here. -/
def isSpaceChar (c : Char) : Bool :=
  c = ' ' || c = '\t' || c = '\n' || c = '\r' || c = '\x0b' || c = '\x0c'

/-- Value of an ASCII digit character. -/
def digitVal (c : Char) : Nat := c.toNat - '0'.toNat

/-- Substring scan: does `pat` occur starting at some position of `s`? -/
def containsAux (pat : List Char) : List Char → Bool
  | [] => pat.isEmpty
  | c :: rest => pat.isPrefixOf (c :: rest) || containsAux pat rest

/-- Python `pat in hay` (substring containment). -/
def containsSub (hay pat : String) : Bool := containsAux pat.data hay.data

/-- Python `s.startswith(pre)`. -/
def pyStartsWith (s pre : String) : Bool := pre.data.isPrefixOf s.data

/-- Python `s.lower()` (ASCII fragment). -/
def pyLower (s : String) : String := ⟨s.data.map Char.toLower⟩

/-- Python `s.strip()` on a character list. -/
def pyStripList (s : List Char) : List Char :=
  ((s.dropWhile isSpaceChar).reverse.dropWhile isSpaceChar).reverse

/-- Python `s.strip()`. -/
def pyStrip (s : String) : String := ⟨pyStripList s.data⟩

/-- Fuel-indexed scanner for `removeAll`; called with `fuel = s.length`,
which suffices since each step consumes at least one character. -/
def removeAllFuel (pat : List Char) : Nat → List Char → List Char
  | _, [] => []
  | 0, s => s
  | fuel + 1, c :: rest =>
    if pat ≠ [] && pat.isPrefixOf (c :: rest) then
      removeAllFuel pat fuel ((c :: rest).drop pat.length)
    else
      c :: removeAllFuel pat fuel rest

/-- Python `s.replace(pat, "")` for a non-empty pattern: remove all
non-overlapping occurrences left to right. -/
def removeAll (pat : List Char) (s : List Char) : List Char :=
  removeAllFuel pat s.length s

/-- Model of `re.search(r'Q(\d)', text, re.IGNORECASE)`: first ``Q``/``q`` followed by
a digit; returns the captured digit character. -/
def searchQAux : List Char → Option Char
  | c1 :: c2 :: rest =>
    if (c1 = 'Q' || c1 = 'q') && c2.isDigit then some c2
    else searchQAux (c2 :: rest)
  | _ => none

/-- Model of `re.search(r'Q(\d)', text, re.IGNORECASE)` over a `String`. -/
def searchQ (text : String) : Option Char := searchQAux text.data

/-- Attempt of `FY\s*(\d{2,4})` anchored at the head of the list: `FY`
(case-insensitive), greedy whitespace, then at least 2 digits, capturing at
most 4 of them. -/
def tryFYAt : List Char → Option (List Char)
  | f :: y :: rest =>
    if (f = 'F' || f = 'f') && (y = 'Y' || y = 'y') then
      let afterSpace := rest.dropWhile isSpaceChar
      let ds := afterSpace.takeWhile Char.isDigit
      if 2 ≤ ds.length then some (ds.take 4) else none
    else none
  | _ => none

/-- Model of `re.search(r'FY\s*(\d{2,4})', text, re.IGNORECASE)`: leftmost match,
returning the captured digit characters. -/
def searchFYAux : List Char → Option (List Char)
  | [] => none
  | c :: rest =>
    match tryFYAt (c :: rest) with
    | some ds => some ds
    | none => searchFYAux rest

/-- Model of `re.search(r'FY\s*(\d{2,4})', text, re.IGNORECASE)` over a `String`. -/
def searchFY (text : String) : Option String :=
  (searchFYAux text.data).map fun ds => ⟨ds⟩

/-- The 2-digit fiscal-year expansion in `determine_quarter_fy`:
`if len(fy) == 2: fy = f"20{fy}"`. -/
def expandFY (fy : String) : String :=
  if fy.length = 2 then "20" ++ fy else fy

/-! ### `datetime.strptime` model

CPython's `_strptime` matches `%d` with `3[0-1]|[1-2]\d|0[1-9]|[1-9]| [1-9]`,
`%m` with `1[0-2]|0[1-9]|[1-9]`, `%Y` with exactly four digits and `%y` with
exactly two (`00-68` mapping to `20xx`, `69-99` to `19xx`), requires the whole
string to be consumed, and `datetime(...)` then rejects calendar-invalid
combinations with `ValueError` (caught by the per-format loop).  Since the
separators `-`/`/` cannot occur inside any of these fields, splitting the
input on the format's separator is equivalent to the regex match. -/

/-- The `%d` field: whole-part match of `3[0-1]|[1-2]\d|0[1-9]|[1-9]| [1-9]`. -/
def matchDay : List Char → Option Nat
  | ['3', c] => if c = '0' || c = '1' then some (30 + digitVal c) else none
  | [a, b] =>
    if (a = '1' || a = '2') && b.isDigit then some (10 * digitVal a + digitVal b)
    else if a = '0' && ('1' ≤ b && b ≤ '9') then some (digitVal b)
    else if a = ' ' && ('1' ≤ b && b ≤ '9') then some (digitVal b)
    else none
  | [b] => if '1' ≤ b && b ≤ '9' then some (digitVal b) else none
  | _ => none

/-- The `%m` field: whole-part match of `1[0-2]|0[1-9]|[1-9]`. -/
def matchMonth : List Char → Option Nat
  | [a, b] =>
    if a = '1' && ('0' ≤ b && b ≤ '2') then some (10 + digitVal b)
    else if a = '0' && ('1' ≤ b && b ≤ '9') then some (digitVal b)
    else none
  | [b] => if '1' ≤ b && b ≤ '9' then some (digitVal b) else none
  | _ => none

/-- The `%Y` field: exactly four digits. -/
def matchYear4 : List Char → Option Nat
  | [a, b, c, d] =>
    if a.isDigit && b.isDigit && c.isDigit && d.isDigit then
      some (1000 * digitVal a + 100 * digitVal b + 10 * digitVal c + digitVal d)
    else none
  | _ => none

/-- The `%y` field: exactly two digits, with CPython's century rule
(`year ≤ 68 → 2000 + year`, else `1900 + year`). -/
def matchYear2 : List Char → Option Nat
  | [a, b] =>
    if a.isDigit && b.isDigit then
      let y := 10 * digitVal a + digitVal b
      some (if y ≤ 68 then 2000 + y else 1900 + y)
    else none
  | _ => none

/-- Gregorian leap-year rule used by `datetime`. -/
def isLeap (y : Nat) : Bool := y % 4 = 0 && (y % 100 ≠ 0 || y % 400 = 0)

/-- Number of days of month `m` in year `y`. -/
def daysInMonth (y m : Nat) : Nat :=
  if m = 2 then (if isLeap y then 29 else 28)
  else if m = 4 || m = 6 || m = 9 || m = 11 then 30
  else 31

/-- The validation performed by `datetime(year, month, day)`:
`MINYEAR ≤ year ≤ MAXYEAR` and a calendar-valid day. -/
def validDate (y m d : Nat) : Bool :=
  1 ≤ y && y ≤ 9999 && 1 ≤ m && m ≤ 12 && 1 ≤ d && d ≤ daysInMonth y m

/-- Split a character list on a separator character, keeping empty groups
(Python `s.split(sep)` semantics). -/
def splitOnChar (sep : Char) : List Char → List (List Char)
  | [] => [[]]
  | c :: rest =>
    match splitOnChar sep rest with
    | [] => [[]]
    | group :: groups =>
      if c = sep then [] :: group :: groups else (c :: group) :: groups

/-- One attempt at a `%d<sep>%m<sep>%Y`-shaped format.  `year` is the field
matcher for the final component (`matchYear4` or `matchYear2`). -/
def tryDayMonthYear (sep : Char) (year : List Char → Option Nat)
    (s : String) : Option (Nat × Nat × Nat) :=
  match splitOnChar sep s.data with
  | [p1, p2, p3] => do
    let d ← matchDay p1
    let m ← matchMonth p2
    let y ← year p3
    if validDate y m d then some (y, m, d) else none
  | _ => none

/-- One attempt at the `%Y-%m-%d` format. -/
def tryYearMonthDay (s : String) : Option (Nat × Nat × Nat) :=
  match splitOnChar '-' s.data with
  | [p1, p2, p3] => do
    let y ← matchYear4 p1
    let m ← matchMonth p2
    let d ← matchDay p3
    if validDate y m d then some (y, m, d) else none
  | _ => none

/-- The format loop of `determine_quarter_fy`: try
`["%d-%m-%Y", "%d/%m/%Y", "%Y-%m-%d", "%d-%m-%y", "%d/%m/%y"]` in order and
return the first successful parse as `(year, month, day)`. -/
def parse_date (s : String) : Option (Nat × Nat × Nat) :=
  (tryDayMonthYear '-' matchYear4 s).orElse fun _ =>
  (tryDayMonthYear '/' matchYear4 s).orElse fun _ =>
  (tryYearMonthDay s).orElse fun _ =>
  (tryDayMonthYear '-' matchYear2 s).orElse fun _ =>
  tryDayMonthYear '/' matchYear2 s

/-- The month→(quarter, fiscal-year) mapping appearing (twice, verbatim) in
`determine_quarter_fy`: Indian fiscal year, April start. -/
def quarterFromMonth (month year : Nat) : String × String :=
  if 4 ≤ month ∧ month ≤ 6 then ("Q1", "FY" ++ toString (year + 1))
  else if 7 ≤ month ∧ month ≤ 9 then ("Q2", "FY" ++ toString (year + 1))
  else if 10 ≤ month ∧ month ≤ 12 then ("Q3", "FY" ++ toString (year + 1))
  else ("Q4", "FY" ++ toString year)

/-- Model of `determine_quarter_fy(date_str, text)`.  `now = (year, month)` stands for
`datetime.now()` at call time. -/
def determine_quarter_fy (now : Nat × Nat) (date_str text : String) :
    String × String :=
  match searchQ text, searchFY text with
  | some qc, some fy => ("Q".push qc, "FY" ++ expandFY fy)
  | _, _ =>
    if date_str ≠ "" then
      match parse_date date_str with
      | some (y, m, _) => quarterFromMonth m y
      | none => quarterFromMonth now.2 now.1
    else quarterFromMonth now.2 now.1

/-! ### Descriptor extraction -/

/-- The per-item dictionary flowing through the script: built by
`parse_transcript_row` / `get_company_transcripts`, consumed by
`download_and_upload_transcripts`.  Missing dictionary keys are the empty
string (`transcript.get(k, "")`), except `company` whose absence reads as
`"Unknown"` at the consumer. -/
structure Transcript where
  company : String := "Unknown"
  pdf_url : String := ""
  date : String := ""
  quarter : String := ""
  fiscal_year : String := ""
  raw_text : String := ""
  text : String := ""
deriving DecidableEq

/-- A scraped row at the HTML boundary: the `href` attributes of its `<a>`
elements in document order, and `row.get_text(strip=True)`. -/
structure RawRow where
  hrefs : List String
  text : String

/-- Attempt of `\d{1,2}<sep>\d{1,2}<sep>\d{2,4}` (separator dash or slash) anchored at the head of the
list.  A digit run of length 1–2 followed by a separator (longer runs fail
even after backtracking, since the character after 1 or 2 digits is then a
digit, not a separator); the final run is greedy, at least 2 and capturing at
most 4 digits. -/
def dateMatchAt (cs : List Char) : Option (List Char) :=
  let r1 := cs.takeWhile Char.isDigit
  if r1.length = 0 || 2 < r1.length then none
  else
    match cs.drop r1.length with
    | s1 :: rest1 =>
      if s1 = '-' || s1 = '/' then
        let r2 := rest1.takeWhile Char.isDigit
        if r2.length = 0 || 2 < r2.length then none
        else
          match rest1.drop r2.length with
          | s2 :: rest2 =>
            if s2 = '-' || s2 = '/' then
              let r3 := rest2.takeWhile Char.isDigit
              if 2 ≤ r3.length then
                some (r1 ++ [s1] ++ r2 ++ [s2] ++ r3.take 4)
              else none
            else none
          | [] => none
      else none
    | [] => none

/-- the `date_match` regex search of `parse_transcript_row`: leftmost match. -/
def dateSearchAux : List Char → Option (List Char)
  | [] => none
  | c :: rest =>
    match dateMatchAt (c :: rest) with
    | some m => some m
    | none => dateSearchAux rest

/-- Leftmost date-shaped substring of `text`, or `""`
(`date_match.group(1) if date_match else ""`). -/
def dateSearch (text : String) : String :=
  match dateSearchAux text.data with
  | some m => ⟨m⟩
  | none => ""

/-- Model of `re.split(r'\d|Q\d|FY', text)[0]` (case-sensitive): the prefix of `text`
before the first digit, `Q`+digit, or `FY`. -/
def companySplitAux : List Char → List Char
  | [] => []
  | c :: rest =>
    if c.isDigit then []
    else if c = 'Q' && (match rest with | d :: _ => d.isDigit | [] => false) then []
    else if c = 'F' && (match rest with | y :: _ => y = 'Y' | [] => false) then []
    else c :: companySplitAux rest

/-- Company-name extraction of `parse_transcript_row`: split prefix, strip,
drop the literal `"Transcript"`, strip again. -/
def extractCompany (text : String) : String :=
  pyStrip ⟨removeAll "Transcript".data (pyStripList (companySplitAux text.data))⟩

/-- URL absolutization in `parse_transcript_row`: root-relative targets get
the site root, other non-absolute targets are joined with a `/`. -/
def absolutizeRow (href : String) : String :=
  if pyStartsWith href "/" then "https://www.screener.in" ++ href
  else if !pyStartsWith href "http" then "https://www.screener.in/" ++ href
  else href

/-- Model of `parse_transcript_row(row)`: find the first link whose target mentions
`.pdf` or `transcript` (lower-cased), absolutize it, and pattern-match the
row text for date, quarter, fiscal-year and company name. -/
def parse_transcript_row (row : RawRow) : Option Transcript :=
  match row.hrefs.find? (fun h =>
      containsSub (pyLower h) ".pdf" || containsSub (pyLower h) "transcript") with
  | none => none
  | some href =>
    let text := row.text
    some
      { company := (extractCompany text).take 50
        pdf_url := absolutizeRow href
        date := dateSearch text
        quarter := match searchQ text with
                   | some c => "Q".push c
                   | none => ""
        fiscal_year := match searchFY text with
                       | some ds => "FY" ++ ds
                       | none => ""
        raw_text := text.take 100
        text := "" }

/-- One `<a>` element on a company page: its `href` and
`link.get_text(strip=True)`. -/
structure RawLink where
  href : String
  text : String

/-- URL handling in `get_company_transcripts`: only root-relative targets are
absolutized; other non-absolute targets are kept unchanged. -/
def absolutizeCompany (href : String) : String :=
  if !pyStartsWith href "http" then
    (if pyStartsWith href "/" then "https://www.screener.in" ++ href else href)
  else href

/-- Per-link body of `get_company_transcripts`: keep the link only when
`transcript` occurs in the lower-cased target or text. -/
def companyLinkToTranscript (l : RawLink) : Option Transcript :=
  if containsSub (pyLower l.href) "transcript" ||
     containsSub (pyLower l.text) "transcript" then
    some
      { company := "Unknown"
        pdf_url := absolutizeCompany l.href
        quarter := match searchQ l.text with
                   | some c => "Q".push c
                   | none => "Unknown"
        fiscal_year := match searchFY l.text with
                       | some ds => "FY" ++ ds
                       | none => "Unknown"
        text := l.text }
  else none

/-- Model of `get_company_transcripts`: the selected `a[href*='transcript'],
a[href*='.pdf']` links of a company page, filtered and converted. -/
def get_company_transcripts (docLinks : List RawLink) : List Transcript :=
  (docLinks.filter fun l =>
      containsSub l.href "transcript" || containsSub l.href ".pdf").filterMap
    companyLinkToTranscript

/-! ### Google Drive state model

Folders and files live in a `DriveState`; ids are `Nat`, with `0` reserved
for `DRIVE_FOLDER_ID` (the fixed root).  `files().list` returns matches in a
stable order, modelled by list order; `files().create` appends. -/

/-- A Drive folder: id, name, parent id. -/
structure Folder where
  id : Nat
  name : String
  parent : Nat
deriving DecidableEq

/-- The remote-storage state: folders and (filename, parent-folder) files,
plus a fresh-id counter. -/
structure DriveState where
  folders : List Folder
  files : List (String × Nat)
  nextId : Nat
deriving DecidableEq

/-- The fixed root folder id (`DRIVE_FOLDER_ID`). -/
def rootFolderId : Nat := 0

/-- The `files().list` query of `get_or_create_folder`: first folder with
this name under this parent. -/
def findFolder (s : DriveState) (name : String) (parent : Nat) : Option Folder :=
  s.folders.find? fun f => f.name = name && f.parent = parent

/-- Model of `get_or_create_folder(service, folder_name, parent_id)`: return the first
existing match, else create (append) a fresh folder. -/
def get_or_create_folder (name : String) (parent : Nat) (s : DriveState) :
    Nat × DriveState :=
  match findFolder s name parent with
  | some f => (f.id, s)
  | none =>
    (s.nextId,
     { folders := s.folders ++ [⟨s.nextId, name, parent⟩]
       files := s.files
       nextId := s.nextId + 1 })

/-- Model of `file_exists_in_drive(service, filename, folder_id)`. -/
def file_exists_in_drive (filename : String) (folder : Nat) (s : DriveState) :
    Bool :=
  s.files.any fun f => f.1 = filename && f.2 = folder

/-- Model of `upload_to_drive(service, content, filename, folder_id)`: skip when the
name already exists in the folder, else append the file.  (Content plays no
further role in the state model.) -/
def upload_to_drive (filename : String) (folder : Nat) (s : DriveState) :
    DriveState :=
  if file_exists_in_drive filename folder s then s
  else { s with files := s.files ++ [(filename, folder)] }

/-! ### Fetch-and-store pipeline -/

/-- Model of the company-name sanitizer that strips the reserved characters. -/
def sanitizeCompany (s : String) : String :=
  ⟨s.data.filter fun c =>
    !(c = '<' || c = '>' || c = ':' || c = '"' || c = '/' || c = '\\' ||
      c = '|' || c = '?' || c = '*')⟩

/-- The steps of the per-descriptor `try` block at which an exception can be
raised: period resolution, the two folder calls, the existence check, the
download (`session.get` / `raise_for_status`) and the upload. -/
inductive FailStep where
  | resolve
  | createFY
  | createQ
  | existsCheck
  | download
  | upload
deriving DecidableEq

/-- The effect environment of `download_and_upload_transcripts`: which
descriptor index (1-based), if any, raises at which step.  A raising step
happens before that step's state write. -/
structure PipelineEnv where
  fail : Nat → Option FailStep

/-- Outcome of one loop iteration: silent `continue` on a missing URL,
skip-as-existing, download-and-upload, or exception caught as failed. -/
inductive Outcome where
  | noUrl
  | skipped
  | downloaded
  | failed
deriving DecidableEq

/-- The `stats` dictionary. -/
structure Stats where
  downloaded : Nat
  skipped : Nat
  failed : Nat
deriving DecidableEq

/-- The text argument passed to `determine_quarter_fy` by the pipeline:
`transcript.get("raw_text", "") or transcript.get("text", "")`. -/
def pipelineText (t : Transcript) : String :=
  if t.raw_text = "" then t.text else t.raw_text

/-- The quarter used by the pipeline after the hint override:
`if transcript.get("quarter") and transcript.get("quarter") != "Unknown"`. -/
def resolvedQuarter (now : Nat × Nat) (t : Transcript) : String :=
  if t.quarter ≠ "" ∧ t.quarter ≠ "Unknown" then t.quarter
  else (determine_quarter_fy now t.date (pipelineText t)).1

/-- The fiscal year used by the pipeline after the hint override. -/
def resolvedFiscalYear (now : Nat × Nat) (t : Transcript) : String :=
  if t.fiscal_year ≠ "" ∧ t.fiscal_year ≠ "Unknown" then t.fiscal_year
  else (determine_quarter_fy now t.date (pipelineText t)).2

/-- The canonical filename
`f"{safe_company} - {fiscal_year} {quarter} Transcript.pdf"`. -/
def canonicalFilename (now : Nat × Nat) (t : Transcript) : String :=
  sanitizeCompany t.company ++ " - " ++ resolvedFiscalYear now t ++ " " ++
    resolvedQuarter now t ++ " Transcript.pdf"

/-- One iteration of the pipeline loop for the descriptor at (1-based)
index `i`. -/
def processOne (env : PipelineEnv) (now : Nat × Nat) (i : Nat)
    (t : Transcript) (s : DriveState) : Outcome × DriveState :=
  if t.pdf_url = "" then (.noUrl, s)
  else if env.fail i = some .resolve then (.failed, s)
  else
    let fiscal_year := resolvedFiscalYear now t
    let quarter := resolvedQuarter now t
    if env.fail i = some .createFY then (.failed, s)
    else
      let r1 := get_or_create_folder fiscal_year rootFolderId s
      if env.fail i = some .createQ then (.failed, r1.2)
      else
        let r2 := get_or_create_folder quarter r1.1 r1.2
        let filename := canonicalFilename now t
        if env.fail i = some .existsCheck then (.failed, r2.2)
        else if file_exists_in_drive filename r2.1 r2.2 then (.skipped, r2.2)
        else if env.fail i = some .download then (.failed, r2.2)
        else if env.fail i = some .upload then (.failed, r2.2)
        else (.downloaded, upload_to_drive filename r2.1 r2.2)

/-- Add one outcome to the stats counters. -/
def addOutcome (o : Outcome) (st : Stats) : Stats :=
  match o with
  | .noUrl => st
  | .skipped => { st with skipped := st.skipped + 1 }
  | .downloaded => { st with downloaded := st.downloaded + 1 }
  | .failed => { st with failed := st.failed + 1 }

/-- The pipeline loop from index `i` on. -/
def runFrom (env : PipelineEnv) (now : Nat × Nat) (i : Nat) :
    List Transcript → DriveState → Stats × DriveState
  | [], s => (⟨0, 0, 0⟩, s)
  | t :: rest, s =>
    let p := processOne env now i t s
    let r := runFrom env now (i + 1) rest p.2
    (addOutcome p.1 r.1, r.2)

/-- Model of `download_and_upload_transcripts(transcripts, session, drive_service)`:
`enumerate(transcripts, 1)` over the loop body. -/
def download_and_upload_transcripts (env : PipelineEnv) (now : Nat × Nat)
    (ts : List Transcript) (s : DriveState) : Stats × DriveState :=
  runFrom env now 1 ts s

/-! ### Pagination loops

The browser/HTML boundary is an oracle mapping a page number to what the
rendered page yields.  For `scrape_transcripts_page` a row's parse result
(`parse_transcript_row`, whose `try/except` yields `None` on any error) is
precomputed by the oracle; for `get_all_companies` the oracle yields the
selected `a[href*='/company/']` links. -/

/-- One rendered transcripts-listing page: the selected rows (each with its
`parse_transcript_row` result) and whether `a.next, a[rel='next']`
is present. -/
structure ListingPage where
  rows : List (Option Transcript)
  hasNext : Bool

/-- The `while True` loop of `scrape_transcripts_page`, returning the
accumulated transcripts and the list of visited page numbers.  Stops on zero
rows, on a missing next-page link, or once the incremented page counter
passes 200. -/
def scrapeGo (pages : Nat → ListingPage) (page : Nat) :
    List Transcript × List Nat :=
  let v := pages page
  if v.rows.isEmpty then ([], [page])
  else
    let items := v.rows.filterMap id
    if !v.hasNext then (items, [page])
    else if h : 200 < page + 1 then (items, [page])
    else
      let r := scrapeGo pages (page + 1)
      (items ++ r.1, page :: r.2)
termination_by 200 - page
decreasing_by simp only [not_lt] at h; omega

/-- Model of `scrape_transcripts_page(driver, session)`: the loop from page 1. -/
def scrape_transcripts_page (pages : Nat → ListingPage) :
    List Transcript × List Nat :=
  scrapeGo pages 1

/-- One rendered company-screen page: the selected company links (href and
link text) and whether a next-page button is present. -/
structure CompaniesPage where
  links : List RawLink
  hasNext : Bool

/-- One company entry accumulated by `get_all_companies`. -/
structure Company where
  name : String
  url : String
deriving DecidableEq

/-- The per-link body of `get_all_companies`: keep links whose href mentions
`/company/` and whose text is non-empty, absolutizing root-relative hrefs. -/
def companyOfLink (l : RawLink) : Option Company :=
  if containsSub l.href "/company/" && l.text ≠ "" then
    some { name := l.text
           url := if pyStartsWith l.href "/" then
                    "https://www.screener.in" ++ l.href
                  else l.href }
  else none

/-- The `while True` loop of `get_all_companies`: stops on zero links, on a
missing next button once past page 50, or once the incremented page counter
passes 100; otherwise it always advances the page counter, with or without a
next button. -/
def companiesGo (pages : Nat → CompaniesPage) (page : Nat) :
    List Company × List Nat :=
  let v := pages page
  if v.links.isEmpty then ([], [page])
  else
    let cs := v.links.filterMap companyOfLink
    if !v.hasNext && 50 < page then (cs, [page])
    else if h : 100 < page + 1 then (cs, [page])
    else
      let r := companiesGo pages (page + 1)
      (cs ++ r.1, page :: r.2)
termination_by 100 - page
decreasing_by simp only [not_lt] at h; omega

/-- Deduplication by URL at the end of `get_all_companies` (first occurrence
kept). -/
def dedupByUrl : List Company → List String → List Company
  | [], _ => []
  | c :: rest, seen =>
    if c.url ∈ seen then dedupByUrl rest seen
    else c :: dedupByUrl rest (c.url :: seen)

/-- Model of `get_all_companies(driver)`: the loop from page 1 followed by URL
deduplication; also returns the visited page numbers. -/
def get_all_companies (pages : Nat → CompaniesPage) :
    List Company × List Nat :=
  let r := companiesGo pages 1
  (dedupByUrl r.1 [], r.2)

/-! ## Helper lemmas -/

/-- A digit captured by the `Q(\d)` search is a digit character. -/
lemma searchQAux_isDigit : ∀ (l : List Char) (c : Char),
    searchQAux l = some c → c.isDigit = true := by
  intro l
  induction l with
  | nil => intro c h; simp [searchQAux] at h
  | cons c1 rest ih =>
    intro c h
    cases rest with
    | nil => simp [searchQAux] at h
    | cons c2 rest2 =>
      rw [searchQAux] at h
      by_cases hc : ((c1 = 'Q' || c1 = 'q') && c2.isDigit) = true
      · rw [if_pos hc] at h
        cases h
        simp at hc
        exact hc.2
      · rw [if_neg hc] at h
        exact ih c h

/-- The mapping `quarterFromMonth` only ever produces the four quarter labels, always
paired with an `FY`-prefixed year. -/
lemma quarterFromMonth_cases (m y : Nat) :
    quarterFromMonth m y = ("Q1", "FY" ++ toString (y + 1)) ∨
    quarterFromMonth m y = ("Q2", "FY" ++ toString (y + 1)) ∨
    quarterFromMonth m y = ("Q3", "FY" ++ toString (y + 1)) ∨
    quarterFromMonth m y = ("Q4", "FY" ++ toString y) := by
  unfold quarterFromMonth
  split_ifs <;> simp

/-- When the text lacks one of the two markers, `determine_quarter_fy` falls
through to the date/fallback logic. -/
lemma determine_quarter_fy_no_markers (now : Nat × Nat) (date text : String)
    (hmk : searchQ text = none ∨ searchFY text = none) :
    determine_quarter_fy now date text =
      if date ≠ "" then
        match parse_date date with
        | some (y, m, _) => quarterFromMonth m y
        | none => quarterFromMonth now.2 now.1
      else quarterFromMonth now.2 now.1 := by
  unfold determine_quarter_fy
  rcases hmk with h | h <;> rw [h] <;> cases hq : searchQ text <;>
    cases hf : searchFY text <;> rfl

/-- When both markers are present, the text branch is taken. -/
lemma determine_quarter_fy_markers (text : String) (qc : Char) (fy : String)
    (hq : searchQ text = some qc) (hfy : searchFY text = some fy)
    (date : String) (now : Nat × Nat) :
    determine_quarter_fy now date text = ("Q".push qc, "FY" ++ expandFY fy) := by
  unfold determine_quarter_fy
  rw [hq, hfy]

/-! ## C2: text markers win over any date -/

/-- C2: whenever the text contains both a quarter marker `Q(\d)` and a
fiscal-year marker `FY\s*(\d{2,4})`, `determine_quarter_fy` returns exactly
that quarter and that (2-digit-expanded) fiscal year, for every date string
and every current time — the date is never consulted. -/
theorem c2_text_markers (text : String) (qc : Char) (fy : String)
    (hq : searchQ text = some qc) (hfy : searchFY text = some fy) :
    ∀ (date : String) (now : Nat × Nat),
      determine_quarter_fy now date text = ("Q".push qc, "FY" ++ expandFY fy) := by
  intro date now
  exact determine_quarter_fy_markers text qc fy hq hfy date now

/-- Witness for C2 at the spec's example text, with two unrelated dates. -/
theorem c2_witness :
    searchQ "Acme Corp Q2 FY24 Transcript 15-07-2024" = some '2' ∧
    searchFY "Acme Corp Q2 FY24 Transcript 15-07-2024" = some "24" ∧
    determine_quarter_fy (2025, 10) "01-02-2023"
        "Acme Corp Q2 FY24 Transcript 15-07-2024" = ("Q2", "FY2024") ∧
    determine_quarter_fy (1999, 1) "15-07-2024"
        "Acme Corp Q2 FY24 Transcript 15-07-2024" = ("Q2", "FY2024") :=
  ⟨rfl, rfl,
   c2_text_markers "Acme Corp Q2 FY24 Transcript 15-07-2024" '2' "24" rfl rfl
     "01-02-2023" (2025, 10),
   c2_text_markers "Acme Corp Q2 FY24 Transcript 15-07-2024" '2' "24" rfl rfl
     "15-07-2024" (1999, 1)⟩

/-! ## C3: month-to-fiscal-quarter mapping for parseable dates -/

/-- C3: for a date that parses (via the format list) to `(y, m, d)` and a
text without usable markers, `determine_quarter_fy` maps months 4–6 to
`(Q1, FY(y+1))`, 7–9 to `(Q2, FY(y+1))`, 10–12 to `(Q3, FY(y+1))` and the
remaining months 1–3 to `(Q4, FY y)`. -/
theorem c3_date_quarter_mapping (now : Nat × Nat) (date text : String)
    (y m d : Nat) (hmk : searchQ text = none ∨ searchFY text = none)
    (hp : parse_date date = some (y, m, d)) :
    (4 ≤ m ∧ m ≤ 6 →
      determine_quarter_fy now date text = ("Q1", "FY" ++ toString (y + 1))) ∧
    (7 ≤ m ∧ m ≤ 9 →
      determine_quarter_fy now date text = ("Q2", "FY" ++ toString (y + 1))) ∧
    (10 ≤ m ∧ m ≤ 12 →
      determine_quarter_fy now date text = ("Q3", "FY" ++ toString (y + 1))) ∧
    (m ≤ 3 →
      determine_quarter_fy now date text = ("Q4", "FY" ++ toString y)) := by
  have hd : date ≠ "" := by
    intro h
    rw [h] at hp
    simp [parse_date, tryDayMonthYear, tryYearMonthDay, splitOnChar] at hp
  have key : determine_quarter_fy now date text = quarterFromMonth m y := by
    rw [determine_quarter_fy_no_markers now date text hmk, if_pos hd, hp]
  rw [key]
  refine ⟨?_, ?_, ?_, ?_⟩ <;> intro h <;> unfold quarterFromMonth <;>
    split_ifs <;> first | rfl | omega

/-- Witness for C3 at the spec's example date `"01-02-2023"` (month 2):
quarter `Q4`, fiscal year `FY2023`. -/
theorem c3_witness :
    parse_date "01-02-2023" = some (2023, 2, 1) ∧
    determine_quarter_fy (2025, 10) "01-02-2023" "" = ("Q4", "FY2023") :=
  ⟨rfl,
   (c3_date_quarter_mapping (2025, 10) "01-02-2023" "" 2023 2 1
      (Or.inl rfl) rfl).2.2.2 (by omega)⟩

/-! ## C10: 2-digit-year date strings -/

/-- C10 counterexample: for `"01-02-23"` the 4-digit-year formats all fail
(the `%Y` field requires exactly four digits), the dedicated `%d-%m-%y`
format is reached, and its century rule maps `23` to calendar year `2023`,
so the result is `(Q4, FY2023)` — not `FY23` or `FY24` as the claim
predicts. -/
theorem c10_counterexample :
    tryDayMonthYear '-' matchYear4 "01-02-23" = none ∧
    tryDayMonthYear '/' matchYear4 "01-02-23" = none ∧
    tryYearMonthDay "01-02-23" = none ∧
    parse_date "01-02-23" = some (2023, 2, 1) ∧
    determine_quarter_fy (2025, 10) "01-02-23" "" = ("Q4", "FY2023") ∧
    "FY2023" ≠ "FY23" ∧ "FY2023" ≠ "FY24" :=
  ⟨rfl, rfl, rfl, rfl, rfl, by decide, by decide⟩

/-- C10 amended: the `%Y` field matches exactly four digits, so a 2-digit
year is never accepted literally by the 4-digit-year formats; such inputs
fall through to the `%y` formats, whose century rule maps `00–68` to
`20xx` and `69–99` to `19xx`.  In particular `"01-02-23"` resolves with
calendar year `2023`, giving `(Q4, FY2023)`. -/
theorem c10_two_digit_year (a b : Char) (ha : a.isDigit = true)
    (hb : b.isDigit = true) :
    matchYear4 [a, b] = none ∧
    matchYear2 [a, b] =
      some (if 10 * digitVal a + digitVal b ≤ 68 then
              2000 + (10 * digitVal a + digitVal b)
            else 1900 + (10 * digitVal a + digitVal b)) ∧
    parse_date "01-02-23" = some (2023, 2, 1) ∧
    ∀ now : Nat × Nat,
      determine_quarter_fy now "01-02-23" "" = ("Q4", "FY2023") := by
  refine ⟨rfl, ?_, rfl, ?_⟩
  · rw [matchYear2, ha, hb]
    rfl
  · intro now
    have h1 : determine_quarter_fy now "01-02-23" "" =
        quarterFromMonth 2 2023 := by
      rw [determine_quarter_fy_no_markers now "01-02-23" "" (Or.inl rfl)]
      rfl
    rw [h1]
    rfl

/-- Witness for C10 (amended) at the digit pair `('2', '3')`. -/
theorem c10_witness :
    matchYear4 ['2', '3'] = none ∧
    matchYear2 ['2', '3'] = some 2023 ∧
    determine_quarter_fy (2031, 7) "01-02-23" "" = ("Q4", "FY2023") := by
  have h := c10_two_digit_year '2' '3' rfl rfl
  exact ⟨h.1, h.2.1, h.2.2.2 (2031, 7)⟩

/-! ## C5: shape of the resolved period -/

/-- C5 counterexample: the text branch copies the captured digit verbatim,
so `"Q7 FY2024"` resolves to quarter `"Q7"`, which is none of
`Q1`/`Q2`/`Q3`/`Q4`. -/
theorem c5_counterexample :
    determine_quarter_fy (2025, 10) "" "Q7 FY2024" = ("Q7", "FY2024") ∧
    "Q7" ≠ "Q1" ∧ "Q7" ≠ "Q2" ∧ "Q7" ≠ "Q3" ∧ "Q7" ≠ "Q4" :=
  ⟨rfl, by decide, by decide, by decide, by decide⟩

/-- C5 amended: `determine_quarter_fy` is total and never partial — the
quarter is always `"Q"` followed by a single digit and the fiscal year is
always an `"FY"`-prefixed string — but the quarter is confined to
`{Q1, Q2, Q3, Q4}` only when the text lacks a usable marker pair (date or
current-date resolution); a text marker can produce any digit, e.g. `Q7`. -/
theorem c5_always_resolved (now : Nat × Nat) (date text : String) :
    (∃ c, c.isDigit = true ∧
      (determine_quarter_fy now date text).1 = "Q".push c) ∧
    (∃ rest, (determine_quarter_fy now date text).2 = "FY" ++ rest) ∧
    ((searchQ text = none ∨ searchFY text = none) →
      (determine_quarter_fy now date text).1 = "Q1" ∨
      (determine_quarter_fy now date text).1 = "Q2" ∨
      (determine_quarter_fy now date text).1 = "Q3" ∨
      (determine_quarter_fy now date text).1 = "Q4") := by
  by_cases hboth : (searchQ text).isSome ∧ (searchFY text).isSome
  · obtain ⟨hq, hf⟩ := hboth
    obtain ⟨qc, hqc⟩ := Option.isSome_iff_exists.mp hq
    obtain ⟨fy, hfy⟩ := Option.isSome_iff_exists.mp hf
    have he : determine_quarter_fy now date text =
        ("Q".push qc, "FY" ++ expandFY fy) := by
      unfold determine_quarter_fy
      rw [hqc, hfy]
    refine ⟨⟨qc, searchQAux_isDigit text.data qc hqc, by rw [he]⟩,
      ⟨expandFY fy, by rw [he]⟩, ?_⟩
    intro hmk
    rcases hmk with h | h
    · rw [hqc] at h; cases h
    · rw [hfy] at h; cases h
  · have hmk : searchQ text = none ∨ searchFY text = none := by
      rcases Decidable.not_and_iff_or_not.mp hboth with h | h
      · exact Or.inl (Option.not_isSome_iff_eq_none.mp h)
      · exact Or.inr (Option.not_isSome_iff_eq_none.mp h)
    rw [determine_quarter_fy_no_markers now date text hmk]
    have hshape : ∀ m y : Nat,
        (∃ c, c.isDigit = true ∧ (quarterFromMonth m y).1 = "Q".push c) ∧
        (∃ rest, (quarterFromMonth m y).2 = "FY" ++ rest) ∧
        ((quarterFromMonth m y).1 = "Q1" ∨ (quarterFromMonth m y).1 = "Q2" ∨
         (quarterFromMonth m y).1 = "Q3" ∨ (quarterFromMonth m y).1 = "Q4") := by
      intro m y
      rcases quarterFromMonth_cases m y with h | h | h | h <;> rw [h] <;>
        refine ⟨?_, ⟨_, rfl⟩, by simp⟩
      · exact ⟨'1', rfl, rfl⟩
      · exact ⟨'2', rfl, rfl⟩
      · exact ⟨'3', rfl, rfl⟩
      · exact ⟨'4', rfl, rfl⟩
    split
    · split
      · exact ⟨(hshape _ _).1, (hshape _ _).2.1, fun _ => (hshape _ _).2.2⟩
      · exact ⟨(hshape _ _).1, (hshape _ _).2.1, fun _ => (hshape _ _).2.2⟩
    · exact ⟨(hshape _ _).1, (hshape _ _).2.1, fun _ => (hshape _ _).2.2⟩

/-- Witness for C5 (amended) at a concrete no-marker input. -/
theorem c5_witness :
    (searchQ "" = none ∨ searchFY "" = none) ∧
    ((determine_quarter_fy (2025, 10) "01-02-2023" "").1 = "Q1" ∨
     (determine_quarter_fy (2025, 10) "01-02-2023" "").1 = "Q2" ∨
     (determine_quarter_fy (2025, 10) "01-02-2023" "").1 = "Q3" ∨
     (determine_quarter_fy (2025, 10) "01-02-2023" "").1 = "Q4") :=
  ⟨Or.inl rfl,
   (c5_always_resolved (2025, 10) "01-02-2023" "").2.2 (Or.inl rfl)⟩

/-! ## C4: 2-digit fiscal-year expansion and the hint override -/

/-- The row of the spec's end-to-end example: a transcript link plus the
text `"Acme Corp Q2 FY24 Transcript 15-07-2024"`. -/
def acmeRow : RawRow :=
  ⟨["/company/acme/transcript.pdf"], "Acme Corp Q2 FY24 Transcript 15-07-2024"⟩

/-- C4 counterexample: (a) a 2-digit `FY24` marker without a quarter marker
is not expanded at all — the text branch is skipped and the date decides,
giving `FY2023`; (b) on the spec's end-to-end example
`parse_transcript_row` stores the unexpanded hint `"FY24"`, the hint
overrides the resolver inside the pipeline, and the descriptor is filed
under `FY24`, not `FY2024`. -/
theorem c4_counterexample :
    (determine_quarter_fy (2025, 10) "01-02-2023" "FY24").2 = "FY2023" ∧
    (parse_transcript_row acmeRow).map (fun t => t.company) = some "Acme Corp" ∧
    (parse_transcript_row acmeRow).map (fun t => t.fiscal_year) = some "FY24" ∧
    (parse_transcript_row acmeRow).map
        (fun t => resolvedFiscalYear (2025, 10) t) = some "FY24" ∧
    (parse_transcript_row acmeRow).map
        (fun t => canonicalFilename (2025, 10) t) =
      some "Acme Corp - FY24 Q2 Transcript.pdf" ∧
    "FY24" ≠ "FY2024" :=
  ⟨rfl, rfl, rfl, rfl, rfl, by decide⟩

/-- C4 amended: whenever the text contains a quarter marker and a 2-digit
fiscal-year marker, `determine_quarter_fy` itself does resolve the 4-digit
form (`FY24 → FY2024`) regardless of the date; but the end-to-end pipeline
prefers the descriptor's own unexpanded `fiscal_year` hint produced by
`parse_transcript_row`, so the descriptor with text
`"Acme Corp Q2 FY24 Transcript 15-07-2024"` is stored under fiscal year
`FY24`, not `FY2024`. -/
theorem c4_fy_expansion (text : String) (qc : Char) (fy : String)
    (hq : searchQ text = some qc) (hfy : searchFY text = some fy)
    (h2 : fy.length = 2) :
    (∀ (date : String) (now : Nat × Nat),
      (determine_quarter_fy now date text).2 = "FY" ++ ("20" ++ fy)) ∧
    (parse_transcript_row acmeRow).map
        (fun t => resolvedFiscalYear (2025, 10) t) = some "FY24" := by
  refine ⟨?_, rfl⟩
  intro date now
  have he := determine_quarter_fy_markers text qc fy hq hfy date now
  rw [he]
  simp [expandFY, h2]

/-- Witness for C4 (amended) at the spec's example text. -/
theorem c4_witness :
    searchQ "Acme Corp Q2 FY24 Transcript 15-07-2024" = some '2' ∧
    searchFY "Acme Corp Q2 FY24 Transcript 15-07-2024" = some "24" ∧
    (determine_quarter_fy (2025, 10) "15-07-2024"
        "Acme Corp Q2 FY24 Transcript 15-07-2024").2 = "FY2024" :=
  ⟨rfl, rfl,
   (c4_fy_expansion "Acme Corp Q2 FY24 Transcript 15-07-2024" '2' "24"
      rfl rfl rfl).1 "15-07-2024" (2025, 10)⟩

/-! ## C6: absoluteness of extracted source URLs -/

/-- The test `pyStartsWith` is preserved by extending the string on the right. -/
lemma pyStartsWith_append (pre rest p : String)
    (h : pyStartsWith pre p = true) : pyStartsWith (pre ++ rest) p = true := by
  unfold pyStartsWith at h ⊢
  rw [List.isPrefixOf_iff_prefix] at h ⊢
  rw [String.data_append]
  exact h.trans (List.prefix_append _ _)

/-- Every URL produced by `parse_transcript_row`'s absolutization starts
with `"http"`. -/
lemma absolutizeRow_http (href : String) :
    pyStartsWith (absolutizeRow href) "http" = true := by
  unfold absolutizeRow
  split_ifs with h1 h2
  · exact pyStartsWith_append "https://www.screener.in" href "http" (by decide)
  · exact pyStartsWith_append "https://www.screener.in/" href "http" (by decide)
  · simpa using h2

/-- C6 counterexample: in `get_company_transcripts`, a relative href that is
not root-relative (here `"transcript.pdf"`) is stored unchanged, so the
descriptor's source URL does not start with `"http"`. -/
theorem c6_counterexample :
    (get_company_transcripts [⟨"transcript.pdf", "Some Doc"⟩]).map
        (fun t => t.pdf_url) = ["transcript.pdf"] ∧
    pyStartsWith "transcript.pdf" "http" = false :=
  ⟨rfl, by decide⟩

/-- The URL stored by `parse_transcript_row` is the absolutized first
matching link target. -/
lemma parse_transcript_row_pdf_url (row : RawRow) :
    (parse_transcript_row row).map (fun t => t.pdf_url) =
      (row.hrefs.find? fun h =>
        containsSub (pyLower h) ".pdf" || containsSub (pyLower h) "transcript").map
        absolutizeRow := by
  unfold parse_transcript_row
  cases row.hrefs.find? fun h =>
      containsSub (pyLower h) ".pdf" || containsSub (pyLower h) "transcript" <;> rfl

/-- The URL stored by `companyLinkToTranscript` is `absolutizeCompany` of
the link target. -/
lemma companyLinkToTranscript_pdf_url (l : RawLink) :
    (companyLinkToTranscript l).map (fun u => u.pdf_url) = none ∨
    (companyLinkToTranscript l).map (fun u => u.pdf_url) =
      some (absolutizeCompany l.href) := by
  unfold companyLinkToTranscript
  split_ifs <;> simp

/-- C6 amended: descriptors from `parse_transcript_row` always carry a URL
starting with `"http"` (root-relative targets get the site root, other
non-absolute targets are joined with a separator); in
`get_company_transcripts`, absolute and root-relative targets also yield
`"http"`-prefixed URLs, but a target that is neither is stored unchanged. -/
theorem c6_source_url (row : RawRow) (l : RawLink) (t u : Transcript)
    (hrow : parse_transcript_row row = some t)
    (hlink : companyLinkToTranscript l = some u) :
    pyStartsWith t.pdf_url "http" = true ∧
    (pyStartsWith l.href "http" = true ∨ pyStartsWith l.href "/" = true →
      pyStartsWith u.pdf_url "http" = true) ∧
    (pyStartsWith l.href "http" = false → pyStartsWith l.href "/" = false →
      u.pdf_url = l.href) := by
  have hurl : ∃ href, t.pdf_url = absolutizeRow href := by
    have h1 := parse_transcript_row_pdf_url row
    rw [hrow] at h1
    cases hfind : row.hrefs.find? fun h =>
        containsSub (pyLower h) ".pdf" || containsSub (pyLower h) "transcript" with
    | none => rw [hfind] at h1; cases h1
    | some href =>
      rw [hfind] at h1
      exact ⟨href, Option.some_injective _ h1⟩
  obtain ⟨href, hurl⟩ := hurl
  have hu : u.pdf_url = absolutizeCompany l.href := by
    rcases companyLinkToTranscript_pdf_url l with h1 | h1 <;> rw [hlink] at h1
    · cases h1
    · exact Option.some_injective _ h1
  refine ⟨?_, ?_, ?_⟩
  · rw [hurl]; exact absolutizeRow_http href
  · intro hor
    rw [hu]
    unfold absolutizeCompany
    split_ifs with h1 h2
    · exact pyStartsWith_append "https://www.screener.in" l.href "http" (by decide)
    · rcases hor with h | h
      · simp only [Bool.not_eq_true'] at h1
        rw [h1] at h
        cases h
      · exact absurd h h2
    · simpa using h1
  · intro hh hs
    rw [hu]
    unfold absolutizeCompany
    rw [hh, hs]
    rfl

/-- Witness for C6 (amended) at a row with a root-relative link and a
company-page link with an absolute href. -/
theorem c6_witness :
    parse_transcript_row acmeRow = some
      { company := "Acme Corp"
        pdf_url := "https://www.screener.in/company/acme/transcript.pdf"
        date := "15-07-2024"
        quarter := "Q2"
        fiscal_year := "FY24"
        raw_text := "Acme Corp Q2 FY24 Transcript 15-07-2024"
        text := "" } ∧
    companyLinkToTranscript ⟨"https://a.b/t", "Transcript"⟩ = some
      { company := "Unknown"
        pdf_url := "https://a.b/t"
        date := ""
        quarter := "Unknown"
        fiscal_year := "Unknown"
        raw_text := ""
        text := "Transcript" } ∧
    pyStartsWith "https://www.screener.in/company/acme/transcript.pdf" "http" = true :=
  ⟨rfl, rfl,
   (c6_source_url acmeRow ⟨"https://a.b/t", "Transcript"⟩ _ _ rfl rfl).1⟩

/-! ## C7: role of the next-page link in the two crawl loops -/

/-- A listing oracle whose pages always have rows but never a next link. -/
def pagesNoNext : Nat → ListingPage := fun _ => ⟨[none], false⟩

/-- C7 counterexample: in `scrape_transcripts_page` the absence of the
next-page link is by itself a hard stop: with non-empty rows on every page
and the cap far away, the loop still visits only page 1. -/
theorem c7_counterexample :
    (pagesNoNext 1).rows.isEmpty = false ∧
    (pagesNoNext 1).hasNext = false ∧
    (scrape_transcripts_page pagesNoNext).2 = [1] := by
  refine ⟨rfl, rfl, ?_⟩
  rw [scrape_transcripts_page, scrapeGo]
  rfl

/-- C7 amended: the next-page link is a soft signal only in
`get_all_companies` — there, a page with links always advances the counter
while the caps are not hit, with or without a next button — whereas in
`scrape_transcripts_page` the absence of the next-page link is a hard stop
condition: a page with rows and no next link ends the loop at that page. -/
theorem c7_next_link_roles (pages : Nat → ListingPage)
    (pagesC : Nat → CompaniesPage) (page pageC : Nat)
    (hrows : (pages page).rows.isEmpty = false)
    (hnonext : (pages page).hasNext = false)
    (hlinks : (pagesC pageC).links.isEmpty = false)
    (hcap : pageC ≤ 50) :
    (scrapeGo pages page).2 = [page] ∧
    (companiesGo pagesC pageC).2 = pageC :: (companiesGo pagesC (pageC + 1)).2 := by
  constructor
  · rw [scrapeGo, hrows, hnonext]
    simp
  · rw [companiesGo, hlinks]
    have h1 : (!(pagesC pageC).hasNext && decide (50 < pageC)) = false := by
      have hd : decide (50 < pageC) = false := by
        simp only [decide_eq_false_iff_not]
        omega
      rw [hd, Bool.and_false]
    rw [h1]
    have h2 : ¬ (100 < pageC + 1) := by omega
    simp only [Bool.false_eq_true, if_false, dif_neg h2]

/-- Witness for C7 (amended): a concrete oracle with rows and no next link
on every page. -/
theorem c7_witness :
    (scrapeGo pagesNoNext 3).2 = [3] ∧
    (companiesGo (fun _ => ⟨[⟨"/company/a/", "A"⟩], false⟩) 3).2 =
      3 :: (companiesGo (fun _ => ⟨[⟨"/company/a/", "A"⟩], false⟩) 4).2 :=
  c7_next_link_roles pagesNoNext (fun _ => ⟨[⟨"/company/a/", "A"⟩], false⟩)
    3 3 rfl rfl rfl (by omega)

/-! ## C8: hard caps bound every crawl -/

/-- The visited-pages list of `scrapeGo` has length at most `201 - page`. -/
lemma scrapeGo_visited_le (pages : Nat → ListingPage) :
    ∀ (n page : Nat), 200 - page ≤ n → (scrapeGo pages page).2.length ≤ n + 1 := by
  intro n
  induction n with
  | zero =>
    intro page h
    rw [scrapeGo]
    split
    · simp
    · split
      · simp
      · split
        · simp
        · rename_i hcap
          simp only [not_lt] at hcap
          omega
  | succ k ih =>
    intro page h
    rw [scrapeGo]
    split
    · simp
    · split
      · simp
      · split
        · simp
        · rename_i hcap
          simp only [not_lt] at hcap
          simp only [List.length_cons]
          have := ih (page + 1) (by omega)
          omega

/-- The visited-pages list of `companiesGo` has length at most `101 - page`. -/
lemma companiesGo_visited_le (pages : Nat → CompaniesPage) :
    ∀ (n page : Nat), 100 - page ≤ n →
      (companiesGo pages page).2.length ≤ n + 1 := by
  intro n
  induction n with
  | zero =>
    intro page h
    rw [companiesGo]
    split
    · simp
    · split
      · simp
      · split
        · simp
        · rename_i hcap
          simp only [not_lt] at hcap
          omega
  | succ k ih =>
    intro page h
    rw [companiesGo]
    split
    · simp
    · split
      · simp
      · split
        · simp
        · rename_i hcap
          simp only [not_lt] at hcap
          simp only [List.length_cons]
          have := ih (page + 1) (by omega)
          omega

/-- C8: whatever the listing source does — including always returning rows
and always presenting a next link — both crawl loops terminate within their
hard page caps: `scrape_transcripts_page` visits at most 200 pages and
`get_all_companies` at most 100. -/
theorem c8_crawl_caps (pages : Nat → ListingPage)
    (pagesC : Nat → CompaniesPage) :
    (scrape_transcripts_page pages).2.length ≤ 200 ∧
    (get_all_companies pagesC).2.length ≤ 100 := by
  constructor
  · have := scrapeGo_visited_le pages 199 1 (by omega)
    simpa [scrape_transcripts_page] using this
  · have := companiesGo_visited_le pagesC 99 1 (by omega)
    simpa [get_all_companies] using this

/-! ## Pipeline lemmas -/

/-- State `s'` extends `s`: both stores only ever grow by appending. -/
def StateExtends (s s' : DriveState) : Prop :=
  ∃ A B, s'.folders = s.folders ++ A ∧ s'.files = s.files ++ B

lemma StateExtends.refl (s : DriveState) : StateExtends s s :=
  ⟨[], [], by simp, by simp⟩

lemma StateExtends.trans {s1 s2 s3 : DriveState}
    (h12 : StateExtends s1 s2) (h23 : StateExtends s2 s3) :
    StateExtends s1 s3 := by
  obtain ⟨A, B, hA, hB⟩ := h12
  obtain ⟨C, D, hC, hD⟩ := h23
  exact ⟨A ++ C, B ++ D, by rw [hC, hA, List.append_assoc],
    by rw [hD, hB, List.append_assoc]⟩

lemma get_or_create_folder_extends (name : String) (parent : Nat)
    (s : DriveState) : StateExtends s (get_or_create_folder name parent s).2 := by
  unfold get_or_create_folder
  cases h : findFolder s name parent
  · exact ⟨[⟨s.nextId, name, parent⟩], [], rfl, by simp⟩
  · exact ⟨[], [], by simp, by simp⟩

lemma upload_to_drive_extends (fn : String) (fid : Nat) (s : DriveState) :
    StateExtends s (upload_to_drive fn fid s) := by
  unfold upload_to_drive
  split_ifs
  · exact ⟨[], [], by simp, by simp⟩
  · exact ⟨[], [(fn, fid)], by simp, rfl⟩

/-- One pipeline iteration only appends to the Drive state — nothing is
rolled back or deleted, whatever the outcome. -/
lemma processOne_extends (env : PipelineEnv) (now : Nat × Nat) (i : Nat)
    (t : Transcript) (s : DriveState) :
    StateExtends s (processOne env now i t s).2 := by
  unfold processOne
  dsimp only
  split_ifs <;>
    first
    | exact StateExtends.refl s
    | exact get_or_create_folder_extends _ _ _
    | exact (get_or_create_folder_extends _ _ _).trans
        (get_or_create_folder_extends _ _ _)
    | exact ((get_or_create_folder_extends _ _ _).trans
        (get_or_create_folder_extends _ _ _)).trans
        (upload_to_drive_extends _ _ _)

/-- The whole loop only appends to the Drive state. -/
lemma runFrom_extends (env : PipelineEnv) (now : Nat × Nat) :
    ∀ (ts : List Transcript) (i : Nat) (s : DriveState),
      StateExtends s (runFrom env now i ts s).2 := by
  intro ts
  induction ts with
  | nil => intro i s; exact StateExtends.refl s
  | cons t rest ih =>
    intro i s
    exact (processOne_extends env now i t s).trans
      (ih (i + 1) (processOne env now i t s).2)

/-! ## C9: per-descriptor error containment -/

/-- C9: when the descriptor at index `i` raises (at any of the modelled
steps), the loop counts exactly one more failure, the other counters and the
final state are those of the continuation on the remaining descriptors in
input order, and the state reached before the error is kept — the stores
only grew by appending. -/
theorem c9_error_containment (env : PipelineEnv) (now : Nat × Nat)
    (s : DriveState) (i : Nat) (t : Transcript) (ts : List Transcript)
    (hf : (processOne env now i t s).1 = .failed) :
    (runFrom env now i (t :: ts) s).1.failed =
      (runFrom env now (i + 1) ts (processOne env now i t s).2).1.failed + 1 ∧
    (runFrom env now i (t :: ts) s).1.downloaded =
      (runFrom env now (i + 1) ts (processOne env now i t s).2).1.downloaded ∧
    (runFrom env now i (t :: ts) s).1.skipped =
      (runFrom env now (i + 1) ts (processOne env now i t s).2).1.skipped ∧
    (runFrom env now i (t :: ts) s).2 =
      (runFrom env now (i + 1) ts (processOne env now i t s).2).2 ∧
    (∃ A B, (processOne env now i t s).2.folders = s.folders ++ A ∧
            (processOne env now i t s).2.files = s.files ++ B) := by
  have hrun : runFrom env now i (t :: ts) s =
      (addOutcome (processOne env now i t s).1
         (runFrom env now (i + 1) ts (processOne env now i t s).2).1,
       (runFrom env now (i + 1) ts (processOne env now i t s).2).2) := rfl
  rw [hrun, hf]
  exact ⟨rfl, rfl, rfl, rfl, processOne_extends env now i t s⟩

/-! ## C1 infrastructure: lookups are stable under state growth -/

lemma findFolder_of_extends {s s' : DriveState} (h : StateExtends s s')
    {name : String} {parent : Nat} {f : Folder}
    (hf : findFolder s name parent = some f) :
    findFolder s' name parent = some f := by
  obtain ⟨A, B, hA, _⟩ := h
  unfold findFolder at hf ⊢
  rw [hA, List.find?_append, hf]
  rfl

lemma file_exists_of_extends {s s' : DriveState} (h : StateExtends s s')
    {fn : String} {fid : Nat}
    (hf : file_exists_in_drive fn fid s = true) :
    file_exists_in_drive fn fid s' = true := by
  obtain ⟨A, B, _, hB⟩ := h
  unfold file_exists_in_drive at hf ⊢
  rw [hB, List.any_append, hf]
  rfl

/-- The destination of a descriptor is fully materialized in `s`: the fiscal
year folder under the root, the quarter folder under it, and the canonical
file inside — each found by the very lookups the pipeline performs. -/
def pathDone (now : Nat × Nat) (t : Transcript) (s : DriveState) : Prop :=
  ∃ ffy fq : Folder,
    findFolder s (resolvedFiscalYear now t) rootFolderId = some ffy ∧
    findFolder s (resolvedQuarter now t) ffy.id = some fq ∧
    file_exists_in_drive (canonicalFilename now t) fq.id s = true

lemma pathDone_of_extends {s s' : DriveState} (h : StateExtends s s')
    {now : Nat × Nat} {t : Transcript} (hp : pathDone now t s) :
    pathDone now t s' := by
  obtain ⟨ffy, fq, h1, h2, h3⟩ := hp
  exact ⟨ffy, fq, findFolder_of_extends h h1, findFolder_of_extends h h2,
    file_exists_of_extends h h3⟩

lemma get_or_create_folder_found {s : DriveState} {name : String}
    {parent : Nat} {f : Folder} (h : findFolder s name parent = some f) :
    get_or_create_folder name parent s = (f.id, s) := by
  unfold get_or_create_folder
  rw [h]

/-- After `get_or_create_folder`, a folder with the requested name and
parent is findable, and its id is the returned one. -/
lemma findFolder_get_or_create (name : String) (parent : Nat)
    (s : DriveState) :
    ∃ f, findFolder (get_or_create_folder name parent s).2 name parent = some f ∧
         f.id = (get_or_create_folder name parent s).1 := by
  cases h : findFolder s name parent with
  | some f =>
    rw [get_or_create_folder_found h]
    exact ⟨f, h, rfl⟩
  | none =>
    have hcreate : get_or_create_folder name parent s =
        (s.nextId,
         ⟨s.folders ++ [⟨s.nextId, name, parent⟩], s.files, s.nextId + 1⟩) := by
      unfold get_or_create_folder
      rw [h]
    rw [hcreate]
    refine ⟨⟨s.nextId, name, parent⟩, ?_, rfl⟩
    unfold findFolder at h ⊢
    dsimp only
    rw [List.find?_append, h]
    simp

/-- Uploading a file makes it findable. -/
lemma file_exists_upload_self (fn : String) (fid : Nat) (s : DriveState) :
    file_exists_in_drive fn fid (upload_to_drive fn fid s) = true := by
  unfold upload_to_drive
  split_ifs with h
  · exact h
  · unfold file_exists_in_drive
    dsimp only
    rw [List.any_append]
    simp

/-! ## `processOne` characterization -/

/-- The folder phase of one iteration: get-or-create the fiscal-year folder
under the root, then the quarter folder under it (a subterm of
`processOne`). -/
def destAfterFolders (now : Nat × Nat) (t : Transcript) (s : DriveState) :
    Nat × DriveState :=
  let r1 := get_or_create_folder (resolvedFiscalYear now t) rootFolderId s
  get_or_create_folder (resolvedQuarter now t) r1.1 r1.2

lemma processOne_noUrl (env : PipelineEnv) (now : Nat × Nat) (i : Nat)
    (t : Transcript) (s : DriveState) (hne : t.pdf_url = "") :
    processOne env now i t s = (.noUrl, s) := by
  unfold processOne
  rw [if_pos hne]

lemma processOne_nofail_eq (env : PipelineEnv) (now : Nat × Nat) (i : Nat)
    (t : Transcript) (s : DriveState) (hne : t.pdf_url ≠ "")
    (hf : env.fail i = none) :
    processOne env now i t s =
      (if file_exists_in_drive (canonicalFilename now t)
            (destAfterFolders now t s).1 (destAfterFolders now t s).2
       then (.skipped, (destAfterFolders now t s).2)
       else (.downloaded,
         upload_to_drive (canonicalFilename now t)
           (destAfterFolders now t s).1 (destAfterFolders now t s).2)) := by
  unfold processOne destAfterFolders
  rw [hf, if_neg hne]
  simp

lemma processOne_nofail_pathDone (env : PipelineEnv) (now : Nat × Nat)
    (i : Nat) (t : Transcript) (s : DriveState) (hne : t.pdf_url ≠ "")
    (hf : env.fail i = none) :
    pathDone now t (processOne env now i t s).2 := by
  rw [processOne_nofail_eq env now i t s hne hf]
  obtain ⟨ffy, hffy, hfyid⟩ :=
    findFolder_get_or_create (resolvedFiscalYear now t) rootFolderId s
  obtain ⟨fq, hfq, hqid⟩ :=
    findFolder_get_or_create (resolvedQuarter now t)
      (get_or_create_folder (resolvedFiscalYear now t) rootFolderId s).1
      (get_or_create_folder (resolvedFiscalYear now t) rootFolderId s).2
  have hffy2 : findFolder (destAfterFolders now t s).2
      (resolvedFiscalYear now t) rootFolderId = some ffy :=
    findFolder_of_extends (get_or_create_folder_extends _ _ _) hffy
  have hfq2 : findFolder (destAfterFolders now t s).2
      (resolvedQuarter now t) ffy.id = some fq := by
    rw [hfyid]
    exact hfq
  have hqid2 : fq.id = (destAfterFolders now t s).1 := hqid
  split_ifs with hex
  · exact ⟨ffy, fq, hffy2, hfq2, by rw [← hqid2] at hex; exact hex⟩
  · refine ⟨ffy, fq,
      findFolder_of_extends (upload_to_drive_extends _ _ _) hffy2,
      findFolder_of_extends (upload_to_drive_extends _ _ _) hfq2, ?_⟩
    rw [hqid2]
    exact file_exists_upload_self _ _ _

lemma processOne_pathDone_skip (env : PipelineEnv) (now : Nat × Nat)
    (i : Nat) (t : Transcript) (s : DriveState) (hne : t.pdf_url ≠ "")
    (hf : env.fail i = none) (hp : pathDone now t s) :
    processOne env now i t s = (.skipped, s) := by
  obtain ⟨ffy, fq, h1, h2, h3⟩ := hp
  rw [processOne_nofail_eq env now i t s hne hf]
  have hdest : destAfterFolders now t s = (fq.id, s) := by
    unfold destAfterFolders
    rw [get_or_create_folder_found h1]
    exact get_or_create_folder_found h2
  rw [hdest, if_pos h3]

lemma processOne_nofail_outcome (env : PipelineEnv) (now : Nat × Nat)
    (i : Nat) (t : Transcript) (s : DriveState) (hf : env.fail i = none) :
    (t.pdf_url = "" ∧ (processOne env now i t s).1 = .noUrl) ∨
    (t.pdf_url ≠ "" ∧ ((processOne env now i t s).1 = .skipped ∨
                       (processOne env now i t s).1 = .downloaded)) := by
  by_cases hne : t.pdf_url = ""
  · exact Or.inl ⟨hne, by rw [processOne_noUrl env now i t s hne]⟩
  · refine Or.inr ⟨hne, ?_⟩
    rw [processOne_nofail_eq env now i t s hne hf]
    split_ifs
    · exact Or.inl rfl
    · exact Or.inr rfl

/-! ## Run-level lemmas -/

/-- Number of descriptors carrying a source URL (the ones the loop counts at
all: the others are silently skipped). -/
def countWithUrl (ts : List Transcript) : Nat :=
  ts.countP fun t => t.pdf_url ≠ ""

lemma countWithUrl_cons_pos (t : Transcript) (rest : List Transcript)
    (h : t.pdf_url ≠ "") : countWithUrl (t :: rest) = countWithUrl rest + 1 := by
  unfold countWithUrl
  rw [List.countP_cons]
  simp [h]

lemma countWithUrl_cons_zero (t : Transcript) (rest : List Transcript)
    (h : t.pdf_url = "") : countWithUrl (t :: rest) = countWithUrl rest := by
  unfold countWithUrl
  rw [List.countP_cons]
  simp [h]

/-- One unfolding step of the loop. -/
lemma runFrom_cons (env : PipelineEnv) (now : Nat × Nat) (i : Nat)
    (t : Transcript) (rest : List Transcript) (s : DriveState) :
    runFrom env now i (t :: rest) s =
      (addOutcome (processOne env now i t s).1
        (runFrom env now (i + 1) rest (processOne env now i t s).2).1,
       (runFrom env now (i + 1) rest (processOne env now i t s).2).2) := rfl

/-- Without failures, the loop never counts a failure and every descriptor
with a URL ends up either downloaded or skipped. -/
lemma runFrom_nofail_stats (env : PipelineEnv) (now : Nat × Nat)
    (hf : ∀ j, env.fail j = none) :
    ∀ (ts : List Transcript) (i : Nat) (s : DriveState),
      (runFrom env now i ts s).1.failed = 0 ∧
      (runFrom env now i ts s).1.downloaded + (runFrom env now i ts s).1.skipped =
        countWithUrl ts := by
  intro ts
  induction ts with
  | nil => intro i s; exact ⟨rfl, rfl⟩
  | cons t rest ih =>
    intro i s
    obtain ⟨ih1, ih2⟩ := ih (i + 1) (processOne env now i t s).2
    rw [runFrom_cons]
    rcases processOne_nofail_outcome env now i t s (hf i) with ⟨hne, ho⟩ |
        ⟨hne, ho | ho⟩ <;> rw [ho] <;> unfold addOutcome <;> dsimp only <;>
      refine ⟨ih1, ?_⟩
    · rw [countWithUrl_cons_zero t rest hne]
      exact ih2
    · rw [countWithUrl_cons_pos t rest hne]
      omega
    · rw [countWithUrl_cons_pos t rest hne]
      omega

/-- Without failures, after the loop every processed descriptor with a URL
has its destination path materialized in the final state. -/
lemma runFrom_nofail_pathDone (env : PipelineEnv) (now : Nat × Nat)
    (hf : ∀ j, env.fail j = none) :
    ∀ (ts : List Transcript) (i : Nat) (s : DriveState) (t' : Transcript),
      t' ∈ ts → t'.pdf_url ≠ "" →
      pathDone now t' (runFrom env now i ts s).2 := by
  intro ts
  induction ts with
  | nil => intro i s t' h; cases h
  | cons t rest ih =>
    intro i s t' hmem hne
    have h2 : (runFrom env now i (t :: rest) s).2 =
        (runFrom env now (i + 1) rest (processOne env now i t s).2).2 := rfl
    rw [h2]
    rcases List.mem_cons.mp hmem with heq | hmem'
    · subst heq
      exact pathDone_of_extends (runFrom_extends env now rest (i + 1) _)
        (processOne_nofail_pathDone env now i t' s hne (hf i))
    · exact ih (i + 1) _ t' hmem' hne

/-- Without failures, on a state where every destination is already
materialized, the loop changes nothing and counts everything with a URL as
skipped. -/
lemma runFrom_allDone (env : PipelineEnv) (now : Nat × Nat)
    (hf : ∀ j, env.fail j = none) :
    ∀ (ts : List Transcript) (i : Nat) (s : DriveState),
      (∀ t' ∈ ts, t'.pdf_url ≠ "" → pathDone now t' s) →
      runFrom env now i ts s = (⟨0, countWithUrl ts, 0⟩, s) := by
  intro ts
  induction ts with
  | nil => intro i s _; rfl
  | cons t rest ih =>
    intro i s hall
    rw [runFrom_cons]
    by_cases hne : t.pdf_url = ""
    · rw [processOne_noUrl env now i t s hne]
      dsimp only
      rw [ih (i + 1) s fun t' hm hu => hall t' (List.mem_cons_of_mem t hm) hu,
        countWithUrl_cons_zero t rest hne]
      rfl
    · rw [processOne_pathDone_skip env now i t s hne (hf i)
        (hall t (List.mem_cons_self t rest) hne)]
      dsimp only
      rw [ih (i + 1) s fun t' hm hu => hall t' (List.mem_cons_of_mem t hm) hu,
        countWithUrl_cons_pos t rest hne]
      rfl

/-! ## C1: idempotence of the fetch-and-store pipeline -/

/-- C1: with no transport failures, re-running the pipeline on the identical
descriptor list against the state left by the first run downloads nothing —
every descriptor that was downloaded or skipped in run 1 (all of those with
a URL) is skipped in run 2 — and the folder tree is unchanged; moreover
`get_or_create_folder` never creates a second folder with the name of an
existing folder under the same parent. -/
theorem c1_pipeline_idempotent (env : PipelineEnv) (now : Nat × Nat)
    (s0 : DriveState) (ts : List Transcript) (hf : ∀ j, env.fail j = none) :
    (download_and_upload_transcripts env now ts
      (download_and_upload_transcripts env now ts s0).2).1.downloaded = 0 ∧
    (download_and_upload_transcripts env now ts
      (download_and_upload_transcripts env now ts s0).2).1.skipped =
      (download_and_upload_transcripts env now ts s0).1.downloaded +
      (download_and_upload_transcripts env now ts s0).1.skipped ∧
    (download_and_upload_transcripts env now ts
      (download_and_upload_transcripts env now ts s0).2).2.folders =
      (download_and_upload_transcripts env now ts s0).2.folders ∧
    (∀ (name : String) (parent : Nat) (s : DriveState) (f : Folder),
      f ∈ s.folders → f.name = name → f.parent = parent →
      (get_or_create_folder name parent s).2 = s) := by
  have hall : ∀ t' ∈ ts, t'.pdf_url ≠ "" →
      pathDone now t' (runFrom env now 1 ts s0).2 :=
    fun t' hm hne => runFrom_nofail_pathDone env now hf ts 1 s0 t' hm hne
  have h2 := runFrom_allDone env now hf ts 1 (runFrom env now 1 ts s0).2 hall
  have h3 := runFrom_nofail_stats env now hf ts 1 s0
  unfold download_and_upload_transcripts
  rw [h2]
  refine ⟨rfl, ?_, rfl, ?_⟩
  · exact h3.2.symm
  · intro name parent s f hmem hn hp
    have hs : (s.folders.find? fun g => g.name = name && g.parent = parent).isSome :=
      List.find?_isSome.mpr ⟨f, hmem, by rw [hn, hp]; simp⟩
    obtain ⟨g, hg⟩ := Option.isSome_iff_exists.mp hs
    have hg' : findFolder s name parent = some g := hg
    rw [get_or_create_folder_found hg']

/-- A concrete descriptor for the pipeline witnesses. -/
def sampleTranscript : Transcript :=
  { company := "Acme Corp"
    pdf_url := "https://www.screener.in/t.pdf"
    date := "15-07-2024"
    quarter := "Q2"
    fiscal_year := "FY24"
    raw_text := "Acme Corp Q2 FY24 Transcript 15-07-2024"
    text := "" }

/-- An environment in which no descriptor ever raises. -/
def envNoFail : PipelineEnv := ⟨fun _ => none⟩

/-- Witness for C1 on a concrete one-descriptor run from an empty store. -/
theorem c1_witness :
    (∀ j, envNoFail.fail j = none) ∧
    (download_and_upload_transcripts envNoFail (2025, 10) [sampleTranscript]
      (download_and_upload_transcripts envNoFail (2025, 10) [sampleTranscript]
        ⟨[], [], 1⟩).2).1.downloaded = 0 :=
  ⟨fun _ => rfl,
   (c1_pipeline_idempotent envNoFail (2025, 10) ⟨[], [], 1⟩ [sampleTranscript]
      fun _ => rfl).1⟩

/-- An environment in which the first descriptor raises at the download
step. -/
def envFailDownload : PipelineEnv :=
  ⟨fun j => if j = 1 then some .download else none⟩

/-- Witness for C9 on a concrete failing descriptor. -/
theorem c9_witness :
    (processOne envFailDownload (2025, 10) 1 sampleTranscript ⟨[], [], 1⟩).1 =
      .failed ∧
    (runFrom envFailDownload (2025, 10) 1 [sampleTranscript] ⟨[], [], 1⟩).1.failed =
      (runFrom envFailDownload (2025, 10) 2 []
        (processOne envFailDownload (2025, 10) 1 sampleTranscript
          ⟨[], [], 1⟩).2).1.failed + 1 :=
  ⟨rfl,
   (c9_error_containment envFailDownload (2025, 10) ⟨[], [], 1⟩ 1
      sampleTranscript [] rfl).1⟩

end TD

